import Mathlib

/-!
Verification of the polymorphic JSON reconstruction engine declared in
`src/functionapproximators/from_jsonpickle.hpp` (`FunctionApproximatorFactory::from_jsonpickle`).
The repository ships only the declaration of the factory; the reconstruction
engine itself (tag resolver, registry, field contract validator, recursive
builder, graph assembler) is modelled from the specification.
-/

namespace DmpBbo

/-- Modelled from the spec: the "Generic JSON Value" consumed by the missing
implementation of `FunctionApproximatorFactory::from_jsonpickle` — an
already-parsed tree of objects/arrays/scalars (numbers are modelled as
rationals, since the engine never computes with them). -/
inductive Json where
  | null : Json
  | bool : Bool → Json
  | num : Rat → Json
  | str : String → Json
  | arr : List Json → Json
  | obj : List (String × Json) → Json
deriving Repr

/-- A step of the error path: a field name or an array index. -/
inductive PathElem where
  | field : String → PathElem
  | index : Nat → PathElem
deriving DecidableEq, Repr

/-- Modelled from the spec: the error taxonomy (§7) of the missing
reconstruction engine. -/
inductive RecErrorKind where
  | missingTypeTag : RecErrorKind
  | malformedTypeTag : RecErrorKind
  | unknownType : String → RecErrorKind
  | capabilityMismatch : String → String → RecErrorKind
  | missingField : String → RecErrorKind
  | fieldShapeMismatch : String → String → String → RecErrorKind
  | shapeMismatch : RecErrorKind
  | malformedDocument : RecErrorKind
deriving DecidableEq, Repr

/-- A structured reconstruction error: the kind together with the
field-name/array-index path from the root to the failure point. -/
structure RecError where
  kind : RecErrorKind
  path : List PathElem
deriving DecidableEq, Repr

/-- Modelled from the spec: the abstract capabilities an object can
implement ("Function Approximator", "Meta-Parameters", "Model-Parameters"). -/
inductive Capability where
  | functionApproximator : Capability
  | metaParameters : Capability
  | modelParameters : Capability
deriving DecidableEq, Repr

/-- Modelled from the spec: the reconstructed object graph for the built-in
variant set, as in the RBFN example scenario of §8 — an RBFN function
approximator owning one Meta-Parameters object and zero or one
Model-Parameters object. -/
inductive ConcreteObj where
  | metaParamsRBFN : List Rat → List Rat → ConcreteObj
  | modelParamsRBFN : List Rat → ConcreteObj
  | rbfn : ConcreteObj → Option ConcreteObj → ConcreteObj
deriving Repr

/-- The concrete-class tag string of a reconstructed object. -/
def ConcreteObj.typeName : ConcreteObj → String
  | .metaParamsRBFN _ _ => "MetaParametersRBFN"
  | .modelParamsRBFN _ => "ModelParametersRBFN"
  | .rbfn _ _ => "RBFN"

/-- The constructor discriminator of a reconstructed object, used to state
that the tag ↔ concrete-type correspondence is a bijection. -/
def ConcreteObj.ctorKind : ConcreteObj → Nat
  | .metaParamsRBFN _ _ => 0
  | .modelParamsRBFN _ => 1
  | .rbfn _ _ => 2

/-- The capability implemented by a reconstructed object. -/
def ConcreteObj.capOf : ConcreteObj → Capability
  | .metaParamsRBFN _ _ => .metaParameters
  | .modelParamsRBFN _ => .modelParameters
  | .rbfn _ _ => .functionApproximator

/-- Display name of a capability, used in `CapabilityMismatch` errors. -/
def Capability.name : Capability → String
  | .functionApproximator => "FunctionApproximator"
  | .metaParameters => "MetaParameters"
  | .modelParameters => "ModelParameters"

/-- Look up a field by name in a JSON object's field list (first match). -/
def lookupField : List (String × Json) → String → Option Json
  | [], _ => none
  | p :: rest, name => if p.1 = name then some p.2 else lookupField rest name

/-- Modelled from the spec: the Type Tag Resolver (§4.1) of the missing
reconstruction engine. Extracts the reserved tag key `"py/object"`; absent
key fails with `MissingTypeTag`, a non-string value fails with
`MalformedTypeTag`; the tag string is returned unresolved. -/
def resolveTag (fields : List (String × Json)) : Except RecErrorKind String :=
  match lookupField fields "py/object" with
  | none => .error .missingTypeTag
  | some (.str s) => .ok s
  | some _ => .error .malformedTypeTag

/-- Modelled from the spec: the expected JSON shapes of the per-type Field
Contract (§4.4). -/
inductive FieldShape where
  | scalarNumber : FieldShape
  | stringShape : FieldShape
  | arrayOfNumber : FieldShape
  | nestedTaggedObject : FieldShape
  | arrayOfNestedTaggedObject : FieldShape
deriving DecidableEq, Repr

/-- Whether a JSON value is a number. -/
def Json.isNum : Json → Bool
  | .num _ => true
  | _ => false

/-- Whether a JSON value is an object. -/
def Json.isObj : Json → Bool
  | .obj _ => true
  | _ => false

/-- Whether a JSON value matches an expected field shape. -/
def matchesShape : FieldShape → Json → Bool
  | .scalarNumber, .num _ => true
  | .stringShape, .str _ => true
  | .arrayOfNumber, .arr xs => xs.all Json.isNum
  | .nestedTaggedObject, .obj _ => true
  | .arrayOfNestedTaggedObject, .arr xs => xs.all Json.isObj
  | _, _ => false

/-- Display name of a JSON value's kind, reported as the `actual` part of a
`FieldShapeMismatch` error. -/
def Json.kindName : Json → String
  | .null => "null"
  | .bool _ => "bool"
  | .num _ => "number"
  | .str _ => "string"
  | .arr _ => "array"
  | .obj _ => "object"

/-- Display name of an expected field shape, reported as the `expected` part
of a `FieldShapeMismatch` error. -/
def FieldShape.name : FieldShape → String
  | .scalarNumber => "scalar-number"
  | .stringShape => "string"
  | .arrayOfNumber => "array-of-number"
  | .nestedTaggedObject => "nested-tagged-object"
  | .arrayOfNestedTaggedObject => "array-of-nested-tagged-object"

/-- One entry of a per-type field contract: a field name, its expected JSON
shape, and whether the field is required. -/
structure FieldSpec where
  name : String
  shape : FieldShape
  required : Bool
deriving DecidableEq, Repr

/-- Modelled from the spec: the presence/shape pass of the Field Contract
Validator (§4.4). Walks the contract in order: a required field that is
absent fails with `MissingField(name)`; a present field of the wrong shape
fails with `FieldShapeMismatch(name, expected, actual)`. -/
def checkContract : List FieldSpec → List (String × Json) → Except RecErrorKind Unit
  | [], _ => .ok ()
  | fs :: rest, fields =>
    match lookupField fields fs.name with
    | none =>
      if fs.required then .error (.missingField fs.name) else checkContract rest fields
    | some v =>
      if matchesShape fs.shape v then checkContract rest fields
      else .error (.fieldShapeMismatch fs.name fs.shape.name v.kindName)

/-- The field names of a contract. -/
def contractNames (c : List FieldSpec) : List String := c.map FieldSpec.name

/-- Modelled from the spec: the strict-mode pass of the Field Contract
Validator — any field other than the reserved tag key that the contract does
not know is an error (the document is structurally invalid for strict mode). -/
def checkUnknown (c : List FieldSpec) : List (String × Json) → Except RecErrorKind Unit
  | [] => .ok ()
  | p :: rest =>
    if p.1 = "py/object" ∨ p.1 ∈ contractNames c then checkUnknown c rest
    else .error .malformedDocument

/-- Modelled from the spec: the Field Contract Validator (§4.4). Checks
presence and shape of contract fields; unknown extra fields are ignored
unless `strict` is set, in which case they are errors (§6 configuration). -/
def validateFields (strict : Bool) (c : List FieldSpec) (fields : List (String × Json)) :
    Except RecErrorKind Unit :=
  match checkContract c fields with
  | .error e => .error e
  | .ok _ => if strict then checkUnknown c fields else .ok ()

/-- One entry of the Concrete Type Registry: a tag string, the capability the
concrete type implements, and its field contract. -/
structure RegistryEntry where
  tag : String
  cap : Capability
  contract : List FieldSpec
deriving DecidableEq, Repr

/-- Field contract of `MetaParametersRBFN`: required numeric arrays
`centers` and `widths`. -/
def metaParamsRBFNContract : List FieldSpec :=
  [⟨"centers", .arrayOfNumber, true⟩, ⟨"widths", .arrayOfNumber, true⟩]

/-- Field contract of `ModelParametersRBFN`: required numeric array
`weights`. -/
def modelParamsRBFNContract : List FieldSpec :=
  [⟨"weights", .arrayOfNumber, true⟩]

/-- Field contract of `RBFN`: required nested `metaParameters`, optional
nested `modelParameters` (absent for an untrained approximator). -/
def rbfnContract : List FieldSpec :=
  [⟨"metaParameters", .nestedTaggedObject, true⟩,
   ⟨"modelParameters", .nestedTaggedObject, false⟩]

/-- Modelled from the spec: the built-in variant set of the Concrete Type
Registry (§4.2), covering the RBFN example scenario of §8. -/
def builtinRegistry : List RegistryEntry :=
  [⟨"RBFN", .functionApproximator, rbfnContract⟩,
   ⟨"MetaParametersRBFN", .metaParameters, metaParamsRBFNContract⟩,
   ⟨"ModelParametersRBFN", .modelParameters, modelParamsRBFNContract⟩]

/-- Registry lookup by tag string (first match). -/
def lookupRegistry : List RegistryEntry → String → Option RegistryEntry
  | [], _ => none
  | e :: rest, tag => if e.tag = tag then some e else lookupRegistry rest tag

/-- Modelled from the spec: the recognized configuration options (§6):
`strict-fields`, a custom registry, and the guard bound on nesting depth
(§5: excess depth is treated as `MalformedDocument`). -/
structure Config where
  strictFields : Bool
  registry : List RegistryEntry
  maxDepth : Nat

/-- The default configuration: non-strict fields, the built-in registry, and
a generous depth guard. -/
def defaultConfig : Config := ⟨false, builtinRegistry, 100⟩

/-- Convert a list of JSON values into a numeric vector, failing on any
non-number element. -/
def numList : List Json → Option (List Rat)
  | [] => some []
  | .num q :: rest => (numList rest).map (fun l => q :: l)
  | _ :: _ => none

/-- Convert a JSON value into a numeric vector (a flat array of numbers). -/
def toNumList : Json → Option (List Rat)
  | .arr xs => numList xs
  | _ => none

/-- Modelled from the spec: the Recursive Object Builder (§4.3) of the
missing implementation of `FunctionApproximatorFactory::from_jsonpickle`.
`fuel` is the remaining nesting-depth budget (§5: when exhausted the document
is rejected as `MalformedDocument`); `path` is the field path from the root,
carried into every error; `cap` is the expected abstract capability.
Resolves the tag, looks it up in the registry, checks the capability,
validates the field contract, recursively builds nested tagged sub-objects
bottom-up, and assembles the parent, checking dependent shape consistency
(weight-vector length versus basis-function count) with `ShapeMismatch`. -/
def build (cfg : Config) : Nat → List PathElem → Capability → Json → Except RecError ConcreteObj
  | 0, path, _, _ => .error ⟨.malformedDocument, path⟩
  | Nat.succ fuel, path, cap, json =>
    match json with
    | .obj fields =>
      match resolveTag fields with
      | .error k => .error ⟨k, path⟩
      | .ok tag =>
        match lookupRegistry cfg.registry tag with
        | none => .error ⟨.unknownType tag, path⟩
        | some entry =>
          if entry.cap = cap then
            match validateFields cfg.strictFields entry.contract fields with
            | .error k => .error ⟨k, path⟩
            | .ok _ =>
              if tag = "MetaParametersRBFN" then
                match (lookupField fields "centers").bind toNumList,
                      (lookupField fields "widths").bind toNumList with
                | some cs, some ws =>
                  if cs.length = ws.length then .ok (.metaParamsRBFN cs ws)
                  else .error ⟨.shapeMismatch, path⟩
                | _, _ => .error ⟨.malformedDocument, path⟩
              else if tag = "ModelParametersRBFN" then
                match (lookupField fields "weights").bind toNumList with
                | some wts => .ok (.modelParamsRBFN wts)
                | none => .error ⟨.malformedDocument, path⟩
              else if tag = "RBFN" then
                match lookupField fields "metaParameters" with
                | none => .error ⟨.missingField "metaParameters", path⟩
                | some jm =>
                  match build cfg fuel (path ++ [.field "metaParameters"]) .metaParameters jm with
                  | .error e => .error e
                  | .ok meta =>
                    match meta with
                    | .metaParamsRBFN cs ws =>
                      match lookupField fields "modelParameters" with
                      | none => .ok (.rbfn (.metaParamsRBFN cs ws) none)
                      | some jmod =>
                        match build cfg fuel (path ++ [.field "modelParameters"]) .modelParameters jmod with
                        | .error e => .error e
                        | .ok model =>
                          match model with
                          | .modelParamsRBFN wts =>
                            if wts.length = cs.length then
                              .ok (.rbfn (.metaParamsRBFN cs ws) (some (.modelParamsRBFN wts)))
                            else .error ⟨.shapeMismatch, path⟩
                          | _ =>
                            .error ⟨.capabilityMismatch (Capability.name .modelParameters)
                              model.typeName, path ++ [.field "modelParameters"]⟩
                    | _ =>
                      .error ⟨.capabilityMismatch (Capability.name .metaParameters)
                        meta.typeName, path ++ [.field "metaParameters"]⟩
              else .error ⟨.unknownType tag, path⟩
          else .error ⟨.capabilityMismatch cap.name tag, path⟩
    | _ => .error ⟨.malformedDocument, path⟩

/-- Reconstruction under a given configuration, requesting a capability at
the top level; starts at the empty path with the configured depth budget. -/
def buildTop (cfg : Config) (cap : Capability) (json : Json) : Except RecError ConcreteObj :=
  build cfg cfg.maxDepth [] cap json

/-- Modelled from the spec: the missing implementation of
`FunctionApproximatorFactory::from_jsonpickle` — one top-level reconstruction
call requesting the Function Approximator capability under the default
configuration: one fully owned root object, or a structured error. -/
def from_jsonpickle (json : Json) : Except RecError ConcreteObj :=
  buildTop defaultConfig .functionApproximator json

/-- The shape-consistency invariant of §3: Meta-Parameters has as many
widths as centers, and Model-Parameters, when present, has exactly one
weight per basis function (center) of the sibling Meta-Parameters. -/
def ConcreteObj.wf : ConcreteObj → Bool
  | .metaParamsRBFN cs ws => cs.length == ws.length
  | .modelParamsRBFN _ => true
  | .rbfn m mo =>
    match m, mo with
    | .metaParamsRBFN cs ws, none => cs.length == ws.length
    | .metaParamsRBFN cs ws, some (.modelParamsRBFN wts) =>
      cs.length == ws.length && wts.length == cs.length
    | _, _ => false

/-- A flat numeric JSON array. -/
def numArr (qs : List Rat) : Json := .arr (qs.map Json.num)

/-- Modelled from the spec: the conforming tagged serializer of the external
scripting environment (§1, §6) — every polymorphic instance becomes a JSON
object with the reserved `"py/object"` tag naming its concrete class plus its
type-specific fields; an untrained approximator simply omits
`modelParameters`. -/
def serialize : ConcreteObj → Json
  | .metaParamsRBFN cs ws =>
    .obj [("py/object", .str "MetaParametersRBFN"),
          ("centers", numArr cs), ("widths", numArr ws)]
  | .modelParamsRBFN wts =>
    .obj [("py/object", .str "ModelParametersRBFN"), ("weights", numArr wts)]
  | .rbfn m mo =>
    .obj ([("py/object", .str "RBFN"), ("metaParameters", serialize m)] ++
      (match mo with
       | none => []
       | some md => [("modelParameters", serialize md)]))

mutual

/-- Nesting depth of a JSON value (scalars have depth 1). -/
def jsonDepth : Json → Nat
  | .null => 1
  | .bool _ => 1
  | .num _ => 1
  | .str _ => 1
  | .arr xs => 1 + jsonListDepth xs
  | .obj fs => 1 + jsonFieldsDepth fs

/-- Maximal nesting depth of the elements of a JSON array. -/
def jsonListDepth : List Json → Nat
  | [] => 0
  | x :: rest => max (jsonDepth x) (jsonListDepth rest)

/-- Maximal nesting depth of the values of a JSON object's field list. -/
def jsonFieldsDepth : List (String × Json) → Nat
  | [] => 0
  | p :: rest => max (jsonDepth p.2) (jsonFieldsDepth rest)

end

/-- A reconstructed object graph with every node carrying the address it was
allocated at. -/
inductive AllocObj where
  | metaParamsRBFN : Nat → List Rat → List Rat → AllocObj
  | modelParamsRBFN : Nat → List Rat → AllocObj
  | rbfn : Nat → AllocObj → Option AllocObj → AllocObj
deriving Repr

/-- Modelled from the spec: the Owned Object Graph Assembler (§4.5) —
allocation in a single pass over the validated tree, every node getting a
fresh address starting at `c`; returns the wired graph and the next free
address. Each occurrence of a sub-document is allocated independently (deep
copy per occurrence, §9). -/
def annotate : ConcreteObj → Nat → AllocObj × Nat
  | .metaParamsRBFN cs ws, c => (.metaParamsRBFN c cs ws, c + 1)
  | .modelParamsRBFN wts, c => (.modelParamsRBFN c wts, c + 1)
  | .rbfn m mo, c =>
    let p := annotate m (c + 1)
    match mo with
    | none => (.rbfn c p.1 none, p.2)
    | some md =>
      let q := annotate md p.2
      (.rbfn c p.1 (some q.1), q.2)

/-- The addresses of all nodes of an allocated object graph. -/
def AllocObj.ids : AllocObj → List Nat
  | .metaParamsRBFN i _ _ => [i]
  | .modelParamsRBFN i _ => [i]
  | .rbfn i m mo =>
    i :: (m.ids ++ (match mo with | none => [] | some md => md.ids))

/-- Forget the allocation addresses, recovering the structural value of an
allocated object graph. -/
def AllocObj.erase : AllocObj → ConcreteObj
  | .metaParamsRBFN _ cs ws => .metaParamsRBFN cs ws
  | .modelParamsRBFN _ wts => .modelParamsRBFN wts
  | .rbfn _ m none => .rbfn m.erase none
  | .rbfn _ m (some md) => .rbfn m.erase (some md.erase)

/-- The two locations a call to `from_jsonpickle` can observe, per the header
signature `from_jsonpickle(const nlohmann::json& json, FunctionApproximator*& fa)`:
the input document and the out-parameter slot. -/
structure CallState where
  input : Json
  out : Option ConcreteObj

/-- Modelled from the spec and the header signature: one call to
`FunctionApproximatorFactory::from_jsonpickle` as a transformer of the
observable call state — the input is taken by const reference and the entire
result is delivered through the out-parameter (the root object on success,
nothing on failure: never a partially constructed object). -/
def from_jsonpickle_call (s : CallState) : CallState :=
  { input := s.input,
    out := match from_jsonpickle s.input with
           | .ok o => some o
           | .error _ => none }

/-- The Meta-Parameters document of the example scenario of §8: three
centers and three widths. -/
def exampleMetaDoc : Json :=
  .obj [("py/object", .str "MetaParametersRBFN"),
        ("centers", .arr [.num 0, .num 1, .num 2]),
        ("widths", .arr [.num (1/2), .num (1/2), .num (1/2)])]

/-- The Model-Parameters document of the example scenario of §8: three
weights. -/
def exampleModelDoc : Json :=
  .obj [("py/object", .str "ModelParametersRBFN"),
        ("weights", .arr [.num 1, .num (-1), .num (1/2)])]

/-- The full RBFN document of the example scenario of §8. -/
def exampleDoc : Json :=
  .obj [("py/object", .str "RBFN"),
        ("metaParameters", exampleMetaDoc),
        ("modelParameters", exampleModelDoc)]

/-- The object graph the example scenario of §8 reconstructs to. -/
def exampleObj : ConcreteObj :=
  .rbfn (.metaParamsRBFN [0, 1, 2] [1/2, 1/2, 1/2])
    (some (.modelParamsRBFN [1, -1, 1/2]))

/-- The example document with `"weights"` changed to 2 elements (§8: must
fail with `ShapeMismatch`). -/
def exampleDocBadWeights : Json :=
  .obj [("py/object", .str "RBFN"),
        ("metaParameters", exampleMetaDoc),
        ("modelParameters",
          .obj [("py/object", .str "ModelParametersRBFN"),
                ("weights", .arr [.num 1, .num (-1)])])]

/-- The tag of a whole document: the resolved reserved key of a top-level
JSON object (a non-object has no tag and is malformed). -/
def docTag : Json → Except RecErrorKind String
  | .obj fields => resolveTag fields
  | _ => .error .malformedDocument

/-- Every JSON value has depth at least one. -/
theorem one_le_jsonDepth (j : Json) : 1 ≤ jsonDepth j := by
  cases j <;> simp [jsonDepth]

/-- **C3**: at any position where a polymorphic object is expected (any
path, any expected capability, any remaining depth budget), a JSON object
without the reserved tag key fails with `MissingTypeTag`, and one whose tag
value is not a string fails with `MalformedTypeTag`; in both cases the
builder returns the error (so no object is allocated). -/
theorem missing_or_malformed_tag (cfg : Config) (fuel : Nat) (path : List PathElem)
    (cap : Capability) (fields : List (String × Json)) :
    (lookupField fields "py/object" = none →
      build cfg (fuel + 1) path cap (.obj fields) = .error ⟨.missingTypeTag, path⟩) ∧
    (∀ v, lookupField fields "py/object" = some v → (∀ s, v ≠ Json.str s) →
      build cfg (fuel + 1) path cap (.obj fields) = .error ⟨.malformedTypeTag, path⟩) := by
  constructor
  · intro h
    simp [build, resolveTag, h]
  · intro v hv hns
    cases v
    case str s => exact absurd rfl (hns s)
    all_goals simp [build, resolveTag, hv]

/-- Witness for `missing_or_malformed_tag`: the §8 example document
`{"centers":[0.0]}` (no tag key) fails with `MissingTypeTag`, and a document
whose tag is the number `1` fails with `MalformedTypeTag`. -/
theorem missing_or_malformed_tag_witness :
    build defaultConfig 1 [] .functionApproximator (.obj [("centers", .arr [.num 0])]) =
      .error ⟨.missingTypeTag, []⟩ ∧
    build defaultConfig 1 [] .functionApproximator (.obj [("py/object", .num 1)]) =
      .error ⟨.malformedTypeTag, []⟩ :=
  ⟨(missing_or_malformed_tag defaultConfig 0 [] .functionApproximator
      [("centers", .arr [.num 0])]).1 rfl,
   (missing_or_malformed_tag defaultConfig 0 [] .functionApproximator
      [("py/object", .num 1)]).2 (.num 1) rfl (fun s h => by cases h)⟩

/-- **C4**: a document carrying a tag string that the Concrete Type Registry
does not contain fails with `UnknownType` naming exactly that tag. -/
theorem unknown_type_error (cfg : Config) (fuel : Nat) (path : List PathElem)
    (cap : Capability) (fields : List (String × Json)) (tag : String)
    (h1 : lookupField fields "py/object" = some (.str tag))
    (h2 : lookupRegistry cfg.registry tag = none) :
    build cfg (fuel + 1) path cap (.obj fields) = .error ⟨.unknownType tag, path⟩ := by
  simp [build, resolveTag, h1, h2]

/-- Witness for `unknown_type_error`: the §8 example document tagged
`"Unobtainium"` fails with `UnknownType("Unobtainium")`. -/
theorem unknown_type_error_witness :
    from_jsonpickle (.obj [("py/object", .str "Unobtainium"), ("x", .num 1)]) =
      .error ⟨.unknownType "Unobtainium", []⟩ :=
  unknown_type_error defaultConfig 99 [] .functionApproximator
    [("py/object", .str "Unobtainium"), ("x", .num 1)] "Unobtainium" rfl rfl

/-- An RBFN document whose nested Meta-Parameters object carries a
non-string tag, so reconstruction fails one level below the root. -/
def exampleDocBadNested : Json :=
  .obj [("py/object", .str "RBFN"),
        ("metaParameters", .obj [("py/object", .num 3)])]

/-- The default configuration with the nesting-depth guard tightened to one
level. -/
def shallowConfig : Config := ⟨false, builtinRegistry, 1⟩

/-- Every error the builder returns carries a path extending the path of the
position where building started. -/
theorem build_error_path (cfg : Config) :
    ∀ (fuel : Nat) (path : List PathElem) (cap : Capability) (j : Json) (e : RecError),
      build cfg fuel path cap j = .error e → path <+: e.path := by
  intro fuel
  induction fuel with
  | zero =>
    intro path cap j e h
    simp only [build, Except.error.injEq] at h
    subst h
    exact List.prefix_refl _
  | succ n ih =>
    intro path cap j e h
    cases j
    case obj fields =>
      simp only [build] at h
      repeat' split at h
      all_goals
        try exact Except.noConfusion h
      all_goals
        injection h with h2
      all_goals
        subst h2
      all_goals
        first
        | exact List.prefix_refl _
        | exact List.prefix_append _ _
        | (rename_i heq
           exact (List.prefix_append _ _).trans (ih _ _ _ _ heq))
    all_goals
      simp only [build, Except.error.injEq] at h
      subst h
      exact List.prefix_refl _

/-- **C2**: a failure at any recursion depth aborts the whole call with a
structured error whose path leads from the root to the failure point (every
error's path extends the path of the position it arose at); the caller
observes either one root object or an error, never both and never an
intermediate state; and in the concrete nested example the error of the
inner object is surfaced unchanged at the root with path
`metaParameters`. -/
theorem error_abort_path_atomicity (cfg : Config) :
    (∀ (fuel : Nat) (path : List PathElem) (cap : Capability) (j : Json) (e : RecError),
      build cfg fuel path cap j = .error e → path <+: e.path) ∧
    (∀ j : Json, (∃ e, from_jsonpickle j = .error e) ↔ ¬∃ o, from_jsonpickle j = .ok o) ∧
    from_jsonpickle exampleDocBadNested =
      .error ⟨.malformedTypeTag, [.field "metaParameters"]⟩ := by
  refine ⟨build_error_path cfg, ?_, rfl⟩
  intro j
  cases h : from_jsonpickle j with
  | error e =>
    constructor
    · rintro - ⟨o, ho⟩
      exact Except.noConfusion ho
    · intro _
      exact ⟨e, rfl⟩
  | ok o =>
    constructor
    · rintro ⟨e, he⟩
      exact Except.noConfusion he
    · intro hn
      exact absurd ⟨o, rfl⟩ hn

/-- Witness for `error_abort_path_atomicity`: the empty root path is a
prefix of the error path reported for the bad nested example document. -/
theorem error_abort_path_atomicity_witness :
    ([] : List PathElem) <+: (RecError.mk .malformedTypeTag [.field "metaParameters"]).path :=
  (error_abort_path_atomicity defaultConfig).1 100 [] .functionApproximator
    exampleDocBadNested ⟨.malformedTypeTag, [.field "metaParameters"]⟩ rfl

/-- A field looked up in an object's field list is at most as deep as the
deepest field value. -/
theorem jsonFieldsDepth_lookup {fields : List (String × Json)} {name : String} {v : Json}
    (h : lookupField fields name = some v) : jsonDepth v ≤ jsonFieldsDepth fields := by
  induction fields with
  | nil => simp [lookupField] at h
  | cons p rest ih =>
    simp only [lookupField] at h
    by_cases hp : p.1 = name
    · rw [if_pos hp] at h
      injection h with h2
      subst h2
      simp only [jsonFieldsDepth]
      exact le_max_left _ _
    · rw [if_neg hp] at h
      simp only [jsonFieldsDepth]
      exact le_trans (ih h) (le_max_right _ _)

/-- The depth budget is irrelevant once it covers the input's nesting depth:
the builder's recursion is bounded by the structure of the input document. -/
theorem build_fuel_irrelevant (cfg : Config) :
    ∀ (f₁ f₂ : Nat) (path : List PathElem) (cap : Capability) (j : Json),
      jsonDepth j ≤ f₁ → jsonDepth j ≤ f₂ →
      build cfg f₁ path cap j = build cfg f₂ path cap j := by
  intro f₁
  induction f₁ with
  | zero =>
    intro f₂ path cap j h₁ h₂
    have := one_le_jsonDepth j
    omega
  | succ n ih =>
    intro f₂ path cap j h₁ h₂
    cases f₂ with
    | zero =>
      have := one_le_jsonDepth j
      omega
    | succ m =>
      cases j
      case obj fields =>
        have hsub : ∀ name v, lookupField fields name = some v →
            jsonDepth v ≤ n ∧ jsonDepth v ≤ m := by
          intro name v hv
          have hd := jsonFieldsDepth_lookup hv
          simp only [jsonDepth] at h₁ h₂
          omega
        simp only [build]
        split
        case h_1 => rfl
        case h_2 x tag heq =>
          split
          case h_1 => rfl
          case h_2 y entry heq2 =>
            split
            case isFalse hc => rfl
            case isTrue hc =>
              split
              case h_1 => rfl
              case h_2 z u hval =>
                split
                case isTrue h1 => rfl
                case isFalse h1 =>
                  split
                  case isTrue h2 => rfl
                  case isFalse h2 =>
                    split
                    case isFalse h3 => rfl
                    case isTrue h3 =>
                      split
                      case h_1 => rfl
                      case h_2 w jm heqjm =>
                        rw [ih m _ _ jm (hsub _ _ heqjm).1 (hsub _ _ heqjm).2]
                        split
                        case h_1 => rfl
                        case h_2 meta heqm =>
                          split
                          case h_2 => rfl
                          case h_1 cs ws =>
                            split
                            case h_1 => rfl
                            case h_2 w2 jmod heqjmod =>
                              rw [ih m _ _ jmod (hsub _ _ heqjmod).1 (hsub _ _ heqjmod).2]
      all_goals simp [build]

/-- **C8**: reconstruction always terminates with its recursion bounded by
the input's nesting depth — any two depth budgets covering the input's
depth give the same result — an exhausted depth budget is rejected as
`MalformedDocument` at every position, and concretely the example document
(depth 4) is rejected as `MalformedDocument` under a depth guard of 1. -/
theorem termination_and_depth_guard (cfg : Config) :
    (∀ (path : List PathElem) (cap : Capability) (j : Json),
      build cfg 0 path cap j = .error ⟨.malformedDocument, path⟩) ∧
    (∀ (f₁ f₂ : Nat) (path : List PathElem) (cap : Capability) (j : Json),
      jsonDepth j ≤ f₁ → jsonDepth j ≤ f₂ →
      build cfg f₁ path cap j = build cfg f₂ path cap j) ∧
    buildTop shallowConfig .functionApproximator exampleDoc =
      .error ⟨.malformedDocument, [.field "metaParameters"]⟩ :=
  ⟨fun _ _ _ => rfl, build_fuel_irrelevant cfg, rfl⟩

/-- Witness for `termination_and_depth_guard`: the example document has
depth 4, so depth budgets 5 and 6 reconstruct it identically. -/
theorem termination_and_depth_guard_witness :
    build defaultConfig 5 [] .functionApproximator exampleDoc =
      build defaultConfig 6 [] .functionApproximator exampleDoc :=
  (termination_and_depth_guard defaultConfig).2.1 5 6 [] .functionApproximator
    exampleDoc (by decide) (by decide)

/-- Every object the builder returns successfully satisfies the
shape-consistency invariant `ConcreteObj.wf`. -/
theorem build_ok_wf (cfg : Config) :
    ∀ (fuel : Nat) (path : List PathElem) (cap : Capability) (j : Json) (o : ConcreteObj),
      build cfg fuel path cap j = .ok o → o.wf = true := by
  intro fuel
  induction fuel with
  | zero =>
    intro path cap j o h
    exact Except.noConfusion h
  | succ n ih =>
    intro path cap j o h
    cases j
    case obj fields =>
      simp only [build] at h
      split at h
      case h_1 => exact Except.noConfusion h
      case h_2 x tag heq =>
        split at h
        case h_1 => exact Except.noConfusion h
        case h_2 y entry heq2 =>
          split at h
          case isFalse hc => exact Except.noConfusion h
          case isTrue hc =>
            split at h
            case h_1 => exact Except.noConfusion h
            case h_2 z u hval =>
              split at h
              case isTrue h1 =>
                split at h
                case h_2 => exact Except.noConfusion h
                case h_1 a b cs ws heqc heqw =>
                  split at h
                  case isFalse hlen => exact Except.noConfusion h
                  case isTrue hlen =>
                    injection h with h2
                    subst h2
                    simp [ConcreteObj.wf, hlen]
              case isFalse h1 =>
                split at h
                case isTrue h2 =>
                  split at h
                  case h_2 => exact Except.noConfusion h
                  case h_1 a wts heqw =>
                    injection h with h2
                    subst h2
                    simp [ConcreteObj.wf]
                case isFalse h2 =>
                  split at h
                  case isFalse h3 => exact Except.noConfusion h
                  case isTrue h3 =>
                    split at h
                    case h_1 => exact Except.noConfusion h
                    case h_2 w jm heqjm =>
                      split at h
                      case h_1 => exact Except.noConfusion h
                      case h_2 meta heqm =>
                        split at h
                        case h_2 => exact Except.noConfusion h
                        case h_1 cs ws =>
                          have hmeta := ih _ _ _ _ heqm
                          split at h
                          case h_1 =>
                            injection h with h2
                            subst h2
                            simp_all [ConcreteObj.wf]
                          case h_2 w2 jmod heqjmod =>
                            split at h
                            case h_1 => exact Except.noConfusion h
                            case h_2 model heqmod =>
                              split at h
                              case h_2 => exact Except.noConfusion h
                              case h_1 wts =>
                                split at h
                                case isFalse hl => exact Except.noConfusion h
                                case isTrue hl =>
                                  injection h with h2
                                  subst h2
                                  simp_all [ConcreteObj.wf, beq_iff_eq]
    all_goals exact Except.noConfusion h

/-- **C5**: every successfully reconstructed object satisfies the
Meta/Model-Parameters shape-consistency invariant (either no
Model-Parameters, or one weight per basis function), and the consistency is
actively checked: the §8 RBFN example (3 centers, 3 widths) with `weights`
shortened to 2 elements fails with `ShapeMismatch`. -/
theorem shape_consistency_checked :
    (∀ (j : Json) (o : ConcreteObj), from_jsonpickle j = .ok o → o.wf = true) ∧
    from_jsonpickle exampleDocBadWeights = .error ⟨.shapeMismatch, []⟩ := by
  constructor
  · intro j o h
    exact build_ok_wf defaultConfig 100 [] .functionApproximator j o h
  · rfl

/-- Witness for `shape_consistency_checked`: the reconstruction of the §8
example document satisfies the shape-consistency invariant. -/
theorem shape_consistency_checked_witness : exampleObj.wf = true :=
  shape_consistency_checked.1 exampleDoc exampleObj rfl

theorem numList_map (qs : List Rat) : numList (qs.map Json.num) = some qs := by
  induction qs with
  | nil => rfl
  | cons q rest ih => simp [numList, ih]

theorem toNumList_numArr (qs : List Rat) : toNumList (numArr qs) = some qs := by
  simp [toNumList, numArr, numList_map]

theorem all_isNum_map (qs : List Rat) : (qs.map Json.num).all Json.isNum = true := by
  induction qs with
  | nil => rfl
  | cons q rest ih => simp [Json.isNum, ih]

theorem matchesShape_numArr (qs : List Rat) :
    matchesShape .arrayOfNumber (numArr qs) = true := by
  simp [matchesShape, numArr, all_isNum_map]

theorem matchesShape_obj (fs : List (String × Json)) :
    matchesShape .nestedTaggedObject (.obj fs) = true := rfl

theorem build_serialize_fa (fuel : Nat) (path : List PathElem) (o : ConcreteObj)
    (hwf : o.wf = true) (hcap : o.capOf = .functionApproximator) :
    build defaultConfig (fuel + 2) path .functionApproximator (serialize o) = .ok o := by
  cases o with
  | metaParamsRBFN cs ws => exact absurd hcap (by simp [ConcreteObj.capOf])
  | modelParamsRBFN wts => exact absurd hcap (by simp [ConcreteObj.capOf])
  | rbfn m mo =>
    cases m with
    | modelParamsRBFN _ => simp [ConcreteObj.wf] at hwf
    | rbfn _ _ => simp [ConcreteObj.wf] at hwf
    | metaParamsRBFN cs ws =>
      cases mo with
      | none =>
        have hlen : cs.length = ws.length := by
          simpa [ConcreteObj.wf] using hwf
        simp [serialize, build, resolveTag, lookupField, defaultConfig, builtinRegistry,
          lookupRegistry, validateFields, checkContract, rbfnContract,
          metaParamsRBFNContract, matchesShape_numArr, matchesShape_obj,
          toNumList_numArr, hlen]
      | some md =>
        cases md with
        | metaParamsRBFN _ _ => simp [ConcreteObj.wf] at hwf
        | rbfn _ _ => simp [ConcreteObj.wf] at hwf
        | modelParamsRBFN wts =>
          have hlen : cs.length = ws.length ∧ wts.length = cs.length := by
            simpa [ConcreteObj.wf] using hwf
          simp [serialize, build, resolveTag, lookupField, defaultConfig, builtinRegistry,
            lookupRegistry, validateFields, checkContract, rbfnContract,
            metaParamsRBFNContract, modelParamsRBFNContract, matchesShape_numArr,
            matchesShape_obj, toNumList_numArr, hlen.1, hlen.2]



theorem build_ok_tag (cfg : Config) (fuel : Nat) (path : List PathElem) (cap : Capability)
    (j : Json) (o : ConcreteObj) (h : build cfg fuel path cap j = .ok o) :
    ∃ fields, j = .obj fields ∧ resolveTag fields = .ok o.typeName := by
  cases fuel with
  | zero => exact Except.noConfusion h
  | succ n =>
    cases j
    case obj fields =>
      refine ⟨fields, rfl, ?_⟩
      simp only [build] at h
      split at h
      case h_1 => exact Except.noConfusion h
      case h_2 x tag heq =>
        rw [heq]
        split at h
        case h_1 => exact Except.noConfusion h
        case h_2 y entry heq2 =>
          split at h
          case isFalse hc => exact Except.noConfusion h
          case isTrue hc =>
            split at h
            case h_1 => exact Except.noConfusion h
            case h_2 z u hval =>
              split at h
              case isTrue h1 =>
                split at h
                case h_2 => exact Except.noConfusion h
                case h_1 a b cs ws heqc heqw =>
                  split at h
                  case isFalse hlen => exact Except.noConfusion h
                  case isTrue hlen =>
                    injection h with h2
                    subst h2
                    simp [ConcreteObj.typeName, h1]
              case isFalse h1 =>
                split at h
                case isTrue h2 =>
                  split at h
                  case h_2 => exact Except.noConfusion h
                  case h_1 a wts heqw =>
                    injection h with h2
                    subst h2
                    simp [ConcreteObj.typeName, h2]
                case isFalse h2 =>
                  split at h
                  case isFalse h3 => exact Except.noConfusion h
                  case isTrue h3 =>
                    split at h
                    case h_1 => exact Except.noConfusion h
                    case h_2 w jm heqjm =>
                      split at h
                      case h_1 => exact Except.noConfusion h
                      case h_2 meta heqm =>
                        split at h
                        case h_2 => exact Except.noConfusion h
                        case h_1 cs ws =>
                          split at h
                          case h_1 =>
                            injection h with h2
                            subst h2
                            simp [ConcreteObj.typeName, h3]
                          case h_2 w2 jmod heqjmod =>
                            split at h
                            case h_1 => exact Except.noConfusion h
                            case h_2 model heqmod =>
                              split at h
                              case h_2 => exact Except.noConfusion h
                              case h_1 wts =>
                                split at h
                                case isFalse hl => exact Except.noConfusion h
                                case isTrue hl =>
                                  injection h with h2
                                  subst h2
                                  simp [ConcreteObj.typeName, h3]
    all_goals exact Except.noConfusion h

theorem typeName_bijective (o₁ o₂ : ConcreteObj) :
    o₁.typeName = o₂.typeName ↔ o₁.ctorKind = o₂.ctorKind := by
  cases o₁ <;> cases o₂ <;> simp [ConcreteObj.typeName, ConcreteObj.ctorKind]

theorem tagged_roundtrip_bijection (o : ConcreteObj)
    (hwf : o.wf = true) (hcap : o.capOf = .functionApproximator) :
    from_jsonpickle (serialize o) = .ok o ∧
    docTag (serialize o) = .ok o.typeName ∧
    (∀ (j : Json) (o' : ConcreteObj), from_jsonpickle j = .ok o' →
      docTag j = .ok o'.typeName) ∧
    (∀ o₁ o₂ : ConcreteObj, o₁.typeName = o₂.typeName ↔ o₁.ctorKind = o₂.ctorKind) := by
  refine ⟨build_serialize_fa 98 [] o hwf hcap, ?_, ?_, typeName_bijective⟩
  · obtain ⟨fields, hj, htag⟩ := build_ok_tag defaultConfig 100 [] .functionApproximator
      (serialize o) o (build_serialize_fa 98 [] o hwf hcap)
    rw [hj]
    simpa [docTag] using htag
  · intro j o' h
    obtain ⟨fields, hj, htag⟩ := build_ok_tag defaultConfig 100 [] .functionApproximator j o' h
    rw [hj]
    simpa [docTag] using htag

theorem tagged_roundtrip_bijection_witness :
    from_jsonpickle (serialize exampleObj) = .ok exampleObj :=
  (tagged_roundtrip_bijection exampleObj rfl rfl).1

/-- A field list satisfies a contract: every required field is present, and
every present contract field has its expected shape. -/
def contractSatisfied (c : List FieldSpec) (fields : List (String × Json)) : Prop :=
  ∀ fs ∈ c, (fs.required = true → lookupField fields fs.name ≠ none) ∧
    (∀ v, lookupField fields fs.name = some v → matchesShape fs.shape v = true)

/-- Every field of the list is either the reserved tag key or known to the
contract. -/
def noUnknownFields (c : List FieldSpec) (fields : List (String × Json)) : Prop :=
  ∀ p ∈ fields, p.1 = "py/object" ∨ p.1 ∈ contractNames c

theorem checkContract_ok_iff (c : List FieldSpec) (fields : List (String × Json)) :
    checkContract c fields = .ok () ↔ contractSatisfied c fields := by
  induction c with
  | nil => simp [checkContract, contractSatisfied]
  | cons fs rest ih =>
    simp only [checkContract]
    split
    case h_1 x hl =>
      split
      case isTrue hr =>
        constructor
        · intro h
          exact Except.noConfusion h
        · intro h
          exact absurd hl ((h fs (List.mem_cons_self _ _)).1 hr)
      case isFalse hr =>
        rw [ih]
        constructor
        · intro h g hg
          rcases List.mem_cons.mp hg with rfl | hg'
          · refine ⟨fun hreq => absurd hreq hr, ?_⟩
            intro v hv
            rw [hl] at hv
            exact Option.noConfusion hv
          · exact h g hg'
        · intro h g hg
          exact h g (List.mem_cons_of_mem _ hg)
    case h_2 x v hl =>
      split
      case isTrue hm =>
        rw [ih]
        constructor
        · intro h g hg
          rcases List.mem_cons.mp hg with rfl | hg'
          · refine ⟨fun _ => by rw [hl]; exact fun hc => Option.noConfusion hc, ?_⟩
            intro v' hv'
            rw [hl] at hv'
            injection hv' with hv2
            subst hv2
            exact hm
          · exact h g hg'
        · intro h g hg
          exact h g (List.mem_cons_of_mem _ hg)
      case isFalse hm =>
        constructor
        · intro h
          exact Except.noConfusion h
        · intro h
          exact absurd ((h fs (List.mem_cons_self _ _)).2 v hl) hm

theorem checkContract_error (c : List FieldSpec) (fields : List (String × Json)) :
    ∀ e, checkContract c fields = .error e →
      (∃ fs ∈ c, e = .missingField fs.name ∧ fs.required = true ∧
        lookupField fields fs.name = none) ∨
      (∃ fs ∈ c, ∃ v, e = .fieldShapeMismatch fs.name fs.shape.name v.kindName ∧
        lookupField fields fs.name = some v ∧ matchesShape fs.shape v = false) := by
  induction c with
  | nil =>
    intro e h
    exact Except.noConfusion h
  | cons fs rest ih =>
    intro e h
    simp only [checkContract] at h
    split at h
    case h_1 x hl =>
      split at h
      case isTrue hr =>
        injection h with h2
        left
        exact ⟨fs, List.mem_cons_self _ _, h2.symm, hr, hl⟩
      case isFalse hr =>
        rcases ih e h with ⟨g, hg, rest'⟩ | ⟨g, hg, rest'⟩
        · exact Or.inl ⟨g, List.mem_cons_of_mem _ hg, rest'⟩
        · exact Or.inr ⟨g, List.mem_cons_of_mem _ hg, rest'⟩
    case h_2 x v hl =>
      split at h
      case isTrue hm =>
        rcases ih e h with ⟨g, hg, rest'⟩ | ⟨g, hg, rest'⟩
        · exact Or.inl ⟨g, List.mem_cons_of_mem _ hg, rest'⟩
        · exact Or.inr ⟨g, List.mem_cons_of_mem _ hg, rest'⟩
      case isFalse hm =>
        injection h with h2
        right
        exact ⟨fs, List.mem_cons_self _ _, v, h2.symm, hl, by simpa using hm⟩

theorem checkUnknown_ok_iff (c : List FieldSpec) (fields : List (String × Json)) :
    checkUnknown c fields = .ok () ↔ noUnknownFields c fields := by
  induction fields with
  | nil => simp [checkUnknown, noUnknownFields]
  | cons p rest ih =>
    simp only [checkUnknown]
    by_cases hp : p.1 = "py/object" ∨ p.1 ∈ contractNames c
    · rw [if_pos hp, ih]
      constructor
      · intro h g hg
        rcases List.mem_cons.mp hg with rfl | hg'
        · exact hp
        · exact h g hg'
      · intro h g hg
        exact h g (List.mem_cons_of_mem _ hg)
    · rw [if_neg hp]
      constructor
      · intro h
        exact Except.noConfusion h
      · intro h
        exact absurd (h p (List.mem_cons_self _ _)) hp

theorem validateFields_false (c : List FieldSpec) (fields : List (String × Json)) :
    validateFields false c fields = checkContract c fields := by
  simp only [validateFields]
  split
  case h_1 x e heq => rw [heq]
  case h_2 x a heq =>
    rw [heq]
    rfl

theorem validateFields_true_ok_iff (c : List FieldSpec) (fields : List (String × Json)) :
    validateFields true c fields = .ok () ↔
      contractSatisfied c fields ∧ noUnknownFields c fields := by
  simp only [validateFields]
  split
  case h_1 x e heq =>
    constructor
    · intro h
      exact Except.noConfusion h
    · rintro ⟨h1, h2⟩
      rw [← checkContract_ok_iff] at h1
      rw [heq] at h1
      exact Except.noConfusion h1
  case h_2 x a heq =>
    cases a
    constructor
    · intro h
      exact ⟨(checkContract_ok_iff c fields).mp heq,
        (checkUnknown_ok_iff c fields).mp (by simpa using h)⟩
    · rintro ⟨h1, h2⟩
      simpa using (checkUnknown_ok_iff c fields).mpr h2

/-- **C6**: the Field Contract Validator accepts (non-strict) exactly when
every required field is present and every present contract field has its
expected shape; in strict mode it additionally requires every field beyond
the tag key to be known to the contract (an unknown field is an error);
and any rejection by the presence/shape pass is a `MissingField` naming an
absent required field or a `FieldShapeMismatch` naming a present field of
the wrong shape together with its expected and actual shapes. -/
theorem field_contract_validator (c : List FieldSpec) (fields : List (String × Json)) :
    (validateFields false c fields = .ok () ↔ contractSatisfied c fields) ∧
    (validateFields true c fields = .ok () ↔
      contractSatisfied c fields ∧ noUnknownFields c fields) ∧
    (∀ e, checkContract c fields = .error e →
      (∃ fs ∈ c, e = .missingField fs.name ∧ fs.required = true ∧
        lookupField fields fs.name = none) ∨
      (∃ fs ∈ c, ∃ v, e = .fieldShapeMismatch fs.name fs.shape.name v.kindName ∧
        lookupField fields fs.name = some v ∧ matchesShape fs.shape v = false)) := by
  refine ⟨?_, validateFields_true_ok_iff c fields, checkContract_error c fields⟩
  rw [validateFields_false, checkContract_ok_iff]

/-- Witness for `field_contract_validator`: a well-shaped `weights` field
satisfies the Model-Parameters contract. -/
theorem field_contract_validator_witness :
    contractSatisfied modelParamsRBFNContract [("weights", numArr [1])] :=
  ((field_contract_validator modelParamsRBFNContract [("weights", numArr [1])]).1).mp rfl

/-- Number of nodes of an object graph. -/
def ConcreteObj.size : ConcreteObj → Nat
  | .metaParamsRBFN _ _ => 1
  | .modelParamsRBFN _ => 1
  | .rbfn m none => 1 + m.size
  | .rbfn m (some md) => 1 + m.size + md.size

/-- Erasing the allocation addresses recovers the assembled value. -/
theorem erase_annotate : ∀ (o : ConcreteObj) (c : Nat), (annotate o c).1.erase = o
  | .metaParamsRBFN _ _, _ => rfl
  | .modelParamsRBFN _, _ => rfl
  | .rbfn m none, c => by
    simp [annotate, AllocObj.erase, erase_annotate m]
  | .rbfn m (some md), c => by
    simp [annotate, AllocObj.erase, erase_annotate m, erase_annotate md]

/-- The next free address after assembling is the start plus the graph's
node count. -/
theorem annotate_snd : ∀ (o : ConcreteObj) (c : Nat), (annotate o c).2 = c + o.size
  | .metaParamsRBFN _ _, _ => rfl
  | .modelParamsRBFN _, _ => rfl
  | .rbfn m none, c => by
    simp [annotate, ConcreteObj.size, annotate_snd m]
    omega
  | .rbfn m (some md), c => by
    simp [annotate, ConcreteObj.size, annotate_snd m, annotate_snd md]
    omega

/-- Every allocated address lies in the assembled range. -/
theorem ids_bounds : ∀ (o : ConcreteObj) (c : Nat) (i : Nat),
    i ∈ (annotate o c).1.ids → c ≤ i ∧ i < (annotate o c).2
  | .metaParamsRBFN _ _, c, i => by
    simp only [annotate, AllocObj.ids, List.mem_singleton]
    rintro rfl
    omega
  | .modelParamsRBFN _, c, i => by
    simp only [annotate, AllocObj.ids, List.mem_singleton]
    rintro rfl
    omega
  | .rbfn m none, c, i => by
    have hs := annotate_snd m (c + 1)
    have hb := ids_bounds m (c + 1) i
    simp only [annotate, AllocObj.ids, List.append_nil, List.mem_cons] at *
    rintro (rfl | hmem)
    · omega
    · have := hb hmem
      omega
  | .rbfn m (some md), c, i => by
    have hs1 := annotate_snd m (c + 1)
    have hs2 := annotate_snd md (annotate m (c + 1)).2
    have hb1 := ids_bounds m (c + 1) i
    have hb2 := ids_bounds md (annotate m (c + 1)).2 i
    simp only [annotate, AllocObj.ids, List.mem_cons, List.mem_append] at *
    rintro (rfl | hmem | hmem)
    · omega
    · have := hb1 hmem
      omega
    · have := hb2 hmem
      omega

/-- The assembled graph allocates one address per node. -/
theorem ids_length : ∀ (o : ConcreteObj) (c : Nat),
    ((annotate o c).1.ids).length = o.size
  | .metaParamsRBFN _ _, _ => rfl
  | .modelParamsRBFN _, _ => rfl
  | .rbfn m none, c => by
    simp [annotate, AllocObj.ids, ConcreteObj.size, ids_length m]
    omega
  | .rbfn m (some md), c => by
    simp [annotate, AllocObj.ids, ConcreteObj.size, ids_length m, ids_length md]
    omega

/-- No address is allocated twice within one assembled graph. -/
theorem ids_nodup : ∀ (o : ConcreteObj) (c : Nat), ((annotate o c).1.ids).Nodup
  | .metaParamsRBFN _ _, c => by simp [annotate, AllocObj.ids]
  | .modelParamsRBFN _, c => by simp [annotate, AllocObj.ids]
  | .rbfn m none, c => by
    have hm := ids_nodup m (c + 1)
    simp only [annotate, AllocObj.ids, List.append_nil, List.nodup_cons]
    refine ⟨fun hmem => ?_, hm⟩
    have := (ids_bounds m (c + 1) c hmem).1
    omega
  | .rbfn m (some md), c => by
    have hm := ids_nodup m (c + 1)
    have hmd := ids_nodup md (annotate m (c + 1)).2
    simp only [annotate, AllocObj.ids, List.nodup_cons, List.mem_append]
    refine ⟨?_, List.Nodup.append hm hmd ?_⟩
    · rintro (hmem | hmem)
      · have := (ids_bounds m (c + 1) c hmem).1
        omega
      · have h1 := (ids_bounds md (annotate m (c + 1)).2 c hmem).1
        have h2 := annotate_snd m (c + 1)
        omega
    · intro i h1 h2
      have hb1 := (ids_bounds m (c + 1) i h1).2
      have hb2 := (ids_bounds md (annotate m (c + 1)).2 i h2).1
      omega



/-- **C7**: reconstructing the same valid document twice yields the same
structural value (determinism), and assembling the two results at disjoint
address ranges yields two graphs that erase to the same value while sharing
no allocated node — structurally equal but not identity-equal, each
independently owned. -/
theorem reconstruct_twice (j : Json) (o₁ o₂ : ConcreteObj) (c₁ c₂ : Nat)
    (h₁ : from_jsonpickle j = .ok o₁) (h₂ : from_jsonpickle j = .ok o₂)
    (hc : (annotate o₁ c₁).2 ≤ c₂) :
    o₁ = o₂ ∧
    (annotate o₁ c₁).1.erase = (annotate o₂ c₂).1.erase ∧
    List.Disjoint ((annotate o₁ c₁).1.ids) ((annotate o₂ c₂).1.ids) := by
  have ho : o₁ = o₂ := by
    have := h₁.symm.trans h₂
    injection this
  subst ho
  refine ⟨rfl, by rw [erase_annotate, erase_annotate], ?_⟩
  intro i hm1 hm2
  have hb1 := (ids_bounds o₁ c₁ i hm1).2
  have hb2 := (ids_bounds o₁ c₂ i hm2).1
  omega

/-- Witness for `reconstruct_twice`: two reconstructions of the §8 example
document assembled at bases 0 and 10. -/
theorem reconstruct_twice_witness :
    exampleObj = exampleObj ∧
    (annotate exampleObj 0).1.erase = (annotate exampleObj 10).1.erase ∧
    List.Disjoint ((annotate exampleObj 0).1.ids) ((annotate exampleObj 10).1.ids) :=
  reconstruct_twice exampleDoc exampleObj exampleObj 0 10 rfl rfl (by decide)

/-- **C9**: after a successful reconstruction the assembled object graph is
strictly tree-shaped: no address is allocated to two nodes (no two live
objects share ownership of a sub-object), the number of addresses equals
the number of nodes (every occurrence of a sub-document is an independent
deep copy), and erasing addresses recovers exactly the reconstructed root
value owned by the caller. -/
theorem ownership_tree_shaped (j : Json) (o : ConcreteObj) (c : Nat)
    (h : from_jsonpickle j = .ok o) :
    ((annotate o c).1.ids).Nodup ∧
    ((annotate o c).1.ids).length = o.size ∧
    (annotate o c).1.erase = o :=
  ⟨ids_nodup o c, ids_length o c, erase_annotate o c⟩

/-- Witness for `ownership_tree_shaped`: the graph reconstructed from the
§8 example document, assembled at base 0. -/
theorem ownership_tree_shaped_witness :
    ((annotate exampleObj 0).1.ids).Nodup ∧
    ((annotate exampleObj 0).1.ids).length = exampleObj.size ∧
    (annotate exampleObj 0).1.erase = exampleObj :=
  ownership_tree_shaped exampleDoc exampleObj 0 rfl

/-- **C10**: a call to `from_jsonpickle` leaves the input document unchanged
(the input location reads identically before and after the call), the
out-parameter after the call depends only on the input value (not on the
slot's prior contents), and on success the out-parameter holds exactly the
reconstructed root — the entire result is delivered through it. -/
theorem input_const_out_param (s₁ s₂ : CallState) (h : s₁.input = s₂.input) :
    (from_jsonpickle_call s₁).input = s₁.input ∧
    (from_jsonpickle_call s₁).out = (from_jsonpickle_call s₂).out ∧
    (∀ o, from_jsonpickle s₁.input = .ok o → (from_jsonpickle_call s₁).out = some o) := by
  refine ⟨rfl, ?_, ?_⟩
  · simp [from_jsonpickle_call, h]
  · intro o ho
    simp [from_jsonpickle_call, ho]

/-- Witness for `input_const_out_param`: calling on the §8 example document
with an empty and with a pre-populated out-slot. -/
theorem input_const_out_param_witness :
    (from_jsonpickle_call ⟨exampleDoc, none⟩).input = exampleDoc ∧
    (from_jsonpickle_call ⟨exampleDoc, none⟩).out =
      (from_jsonpickle_call ⟨exampleDoc, some exampleObj⟩).out :=
  ⟨(input_const_out_param ⟨exampleDoc, none⟩ ⟨exampleDoc, some exampleObj⟩ rfl).1,
   (input_const_out_param ⟨exampleDoc, none⟩ ⟨exampleDoc, some exampleObj⟩ rfl).2.1⟩

end DmpBbo
